import Mathlib

set_option maxRecDepth 8000

/- Shallow embedding of `src/cc_log.rs` from the heapgraph repository: a parser
for textual cycle-collector logs.  Input lines are modelled as `String`s
(Rust's `BufRead::lines` yields lines with the trailing `\n`/`\r\n` stripped),
the anchored regexes of `CCGraph::parse_line` are modelled as explicit matchers
on `List Char`, and the panics of the source are modelled as `Except.error`
with one error constructor per panic site (the names follow the spec's §7
error vocabulary). -/

/-- Rust `u64` addresses (`pub type Addr = u64`); values are kept as `Nat`
bounded by `2 ^ 64` at decode time. -/
abbrev Addr := Nat

/-- Interned-string handle from the `string_intern` crate, modelled as an index
into the interner's table. -/
abbrev Atom := Nat

/-- ASCII decimal digit: the regex class `[0-9]`. -/
def isDigitCh (c : Char) : Bool := 48 ≤ c.toNat && c.toNat ≤ 57

/-- ASCII lowercase letter: the regex range `a-z`. -/
def isLowerCh (c : Char) : Bool := 97 ≤ c.toNat && c.toNat ≤ 122

/-- ASCII uppercase letter: the regex range `A-Z`. -/
def isUpperCh (c : Char) : Bool := 65 ≤ c.toNat && c.toNat ≤ 90

/-- The regex class `[a-zA-Z0-9]` used for address captures. -/
def isAlnumCh (c : Char) : Bool := isDigitCh c || isLowerCh c || isUpperCh c

/-- Hexadecimal digit as accepted by `u64::from_str_radix(_, 16)`. -/
def isHexCh (c : Char) : Bool :=
  isDigitCh c || (97 ≤ c.toNat && c.toNat ≤ 102) || (65 ≤ c.toNat && c.toNat ≤ 70)

/-- The regex class `[a-z0-9=]` of `RESULT_RE`'s tag capture. -/
def isTagCh (c : Char) : Bool := isLowerCh c || isDigitCh c || c == '='

/-- Numeric value of one hex digit (0 on non-hex input, which never occurs). -/
def hexDigitVal (c : Char) : Nat :=
  if 48 ≤ c.toNat && c.toNat ≤ 57 then c.toNat - 48
  else if 97 ≤ c.toNat && c.toNat ≤ 102 then c.toNat - 87
  else if 65 ≤ c.toNat && c.toNat ≤ 70 then c.toNat - 55
  else 0

/-- Value of a hex-digit string, most significant digit first. -/
def hexVal (cs : List Char) : Nat := cs.foldl (fun a c => a * 16 + hexDigitVal c) 0

/-- Value of a decimal-digit string, most significant digit first. -/
def decVal (cs : List Char) : Nat := cs.foldl (fun a c => a * 10 + (c.toNat - 48)) 0

/-- Does the second list start with the first one (a literal piece of a regex)? -/
def startsWithChars : List Char → List Char → Bool
  | [], _ => true
  | _ :: _, [] => false
  | p :: ps, c :: cs => p == c && startsWithChars ps cs

/-- Does `cs` contain `pat` as a contiguous sublist?  Models an unanchored
regex such as `GARBAGE_RE`, i.e. `Regex::new("garbage").is_match`. -/
def containsChars (pat : List Char) : List Char → Bool
  | [] => pat.isEmpty
  | c :: cs => startsWithChars pat (c :: cs) || containsChars pat cs

/-- Consume an exact literal, returning the remainder of the input. -/
def dropLit (pat cs : List Char) : Option (List Char) :=
  if startsWithChars pat cs then some (cs.drop pat.length) else none

/-- Is the head character of the remaining input in `[a-zA-Z0-9]`? -/
def headIsAlnum : List Char → Bool
  | c :: _ => isAlnumCh c
  | [] => false

/-- The optional `(?:0x)?` before an `([a-zA-Z0-9]+)` capture.  The engine
consumes `0x` exactly when an alphanumeric character follows (otherwise it
backtracks and the `0x` itself is captured by the alphanumeric run). -/
def strip0x : List Char → List Char
  | '0' :: 'x' :: rest => if headIsAlnum rest then rest else '0' :: 'x' :: rest
  | cs => cs

/-- A maximal nonempty `[a-zA-Z0-9]+` run; fails on empty. -/
def captureAlnumRun (cs : List Char) : Option (List Char × List Char) :=
  let r := cs.takeWhile isAlnumCh
  if r.isEmpty then none else some (r, cs.dropWhile isAlnumCh)

/-- The capture `(?:0x)?([a-zA-Z0-9]+)` used for addresses in `EDGE_RE`,
`NODE_RE`, `RESULT_RE` and the `value` field of `WEAK_MAP_RE`. -/
def captureHexToken (cs : List Char) : Option (List Char × List Char) :=
  captureAlnumRun (strip0x cs)

/-- The characters of the nil sentinel accepted by the weak-map fields. -/
def nilChars : List Char := "(nil)".data

/-- Embeds `(?:0x)?` before the weak-map alternation `([a-zA-Z0-9]+|\(nil\))`: the
`0x` is consumed exactly when either alternative can match after it. -/
def strip0xWm : List Char → List Char
  | '0' :: 'x' :: rest =>
    if headIsAlnum rest || startsWithChars nilChars rest then rest
    else '0' :: 'x' :: rest
  | cs => cs

/-- The capture `(?:0x)?([a-zA-Z0-9]+|\(nil\))` of the first three weak-map
fields (the two alternatives are disjoint, so the order is immaterial). -/
def captureWmToken (cs : List Char) : Option (List Char × List Char) :=
  let cs' := strip0xWm cs
  if startsWithChars nilChars cs' then some (nilChars, cs'.drop 5)
  else captureAlnumRun cs'

/-- The trailing `([^\r\n]*)` label capture of `EDGE_RE` and `NODE_RE` (the
regexes are not end-anchored, so nothing after the capture is constrained). -/
def takeLabel (cs : List Char) : List Char :=
  cs.takeWhile fun c => !(c == '\r' || c == '\n')

/-- A string-interning table.  Modelled from the spec: the `string_intern`
crate is used by `cc_log.rs` but is outside the provided sources; §3 of the
spec gives its contract — requesting the same string twice yields the same
handle, and the original string is recoverable from a handle. -/
structure StringIntern where
  strings : List String
deriving DecidableEq

def StringIntern.new : StringIntern := ⟨[]⟩

/-- Index of `s` in the table, if present. -/
def internIndex (s : String) : List String → Option Nat
  | [] => none
  | t :: ts => if t = s then some 0 else (internIndex s ts).map (· + 1)

/-- Modelled from the spec: `StringIntern::add` returns the existing handle
for an already-interned string and otherwise appends a fresh entry. -/
def StringIntern.add (t : StringIntern) (s : String) : Atom × StringIntern :=
  match internIndex s t.strings with
  | some i => (i, t)
  | none => (t.strings.length, ⟨t.strings ++ [s]⟩)

/-- Modelled from the spec: `StringIntern::get` recovers the interned string. -/
def StringIntern.get (t : StringIntern) (a : Atom) : String := t.strings.getD a ""

/-- Embeds `pub enum NodeType` of `cc_log.rs`. -/
inductive NodeType
  | RefCounted (count : Int)
  | GC (marked : Bool)
deriving DecidableEq

/-- Rust's `str::split("rc=").nth(1)`: the segment between the first and the
second occurrence of `rc=`, or `none` when `rc=` does not occur. -/
def afterRcEq : List Char → Option (List Char)
  | [] => none
  | c :: cs =>
    if startsWithChars "rc=".data (c :: cs) then some (upToRcEq (cs.drop 2))
    else afterRcEq cs
where
  /-- Everything before the next occurrence of `rc=`. -/
  upToRcEq : List Char → List Char
  | [] => []
  | c :: cs =>
    if startsWithChars "rc=".data (c :: cs) then [] else c :: upToRcEq cs

/-- Rust's `str::parse::<i32>` on the strings this module can pass it (the
`rc=` segment of a node-type token, which contains no sign): a nonempty
all-digit string whose value fits in `i32`, and an error otherwise (the
source `unwrap`s this, so failure is a panic). -/
def parseI32 (cs : List Char) : Option Int :=
  if cs.isEmpty then none
  else if cs.all isDigitCh then
    if decVal cs ≤ 2147483647 then some (decVal cs) else none
  else none

/-- Embeds `NodeType::new` of `cc_log.rs`; `none` models the `unwrap` panic on a
refcount that does not parse as an `i32`. -/
def NodeType.new (s : String) : Option NodeType :=
  match afterRcEq s.data with
  | some seg => (parseI32 seg).map NodeType.RefCounted
  | none => some (NodeType.GC (startsWithChars "gc.".data s.data))

/-- Embeds `enum ParsedLine` of `cc_log.rs`. -/
inductive ParsedLine
  | Node (addr : Addr) (ty : NodeType) (label : Atom)
  | Edge (addr : Addr) (label : Atom)
  | WeakMap (map key delegate value : Addr)
  | Comment
  | Separator
  | Garbage (addr : Addr)
  | KnownEdge (addr : Addr) (count : Nat)
deriving DecidableEq

/-- The panic sites of the source, named after the spec's §7 error kinds.
`InvalidRefCount` is the `unwrap` on the `rc=` count and `InvalidKnownCount`
the `unwrap` on the `known=` count; `DuplicateNode` is the `assert!` in
`add_node`; `EdgeWithoutNode` and `UnexpectedLine` are the builder-phase
errors the spec prescribes. -/
inductive ParseError
  | InvalidAddress
  | InvalidRefCount
  | InvalidKnownCount
  | UnknownResultTag
  | UnrecognizedLine
  | DuplicateNode
  | EdgeWithoutNode
  | UnexpectedLine
deriving DecidableEq

/-- Rust's `u64::from_str_radix(s, 16)` on sign-free input (the only form the
parser ever passes: regex captures are alphanumeric): a nonempty string of
hex digits whose value fits in 64 bits; anything else is an error. -/
def u64FromStrRadix16 (cs : List Char) : Option Nat :=
  if cs.isEmpty then none
  else if cs.all isHexCh then
    if hexVal cs < 2 ^ 64 then some (hexVal cs) else none
  else none

/-- Embeds `CCGraph::atomize_addr` (the receiver is only used for the error print;
`none` models the `panic!("Invalid address string")`). -/
def atomize_addr (s : String) : Option Addr := u64FromStrRadix16 s.data

/-- Embeds `CCGraph::atomize_weakmap_addr`: the literal `(nil)` decodes as `0`. -/
def atomize_weakmap_addr (s : String) : Option Addr :=
  if s = "(nil)" then atomize_addr "0" else atomize_addr s

/-- Embeds `EDGE_RE`: `^> (?:0x)?([a-zA-Z0-9]+) ([^\r\n]*)\r?`; yields the address
and label captures. -/
def matchEdge : List Char → Option (List Char × List Char)
  | '>' :: ' ' :: rest =>
    match captureHexToken rest with
    | some (a, ' ' :: rest2) => some (a, takeLabel rest2)
    | _ => none
  | _ => none

/-- The digits of the `rc=[0-9]+` alternative of `NODE_RE`'s type token,
which must run up to the closing `]`. -/
def matchRcDigits (rest : List Char) : Option (List Char × List Char) :=
  if (rest.takeWhile isDigitCh).isEmpty then none
  else
    match rest.dropWhile isDigitCh with
    | ']' :: rest2 => some ("rc=".data ++ rest.takeWhile isDigitCh, rest2)
    | _ => none

/-- The `gc(?:.marked)?` alternative of `NODE_RE`'s type token, up to the
closing `]`.  The `.` is the regex any-character (except `\n`), and the
greedy optional group is tried before falling back to a bare `gc`. -/
def matchGcAfter : List Char → Option (List Char × List Char)
  | c :: rest =>
    if c != '\n' && startsWithChars "marked]".data rest then
      some ('g' :: 'c' :: c :: "marked".data, rest.drop 7)
    else if c == ']' then some (['g', 'c'], rest)
    else none
  | [] => none

/-- The type-token alternation `(rc=[0-9]+|gc(?:.marked)?)\]` of `NODE_RE`,
starting just after the opening `[`; yields the token and the input after
the closing `]`. -/
def matchTypeToken (cs : List Char) : Option (List Char × List Char) :=
  if startsWithChars "rc=".data cs then matchRcDigits (cs.drop 3)
  else if startsWithChars "gc".data cs then matchGcAfter (cs.drop 2)
  else none

/-- Embeds `NODE_RE`: `^(?:0x)?([a-zA-Z0-9]+) \[(rc=[0-9]+|gc(?:.marked)?)\] ([^\r\n]*)\r?`;
yields the address, type-token and label captures. -/
def matchNode (cs : List Char) : Option (List Char × List Char × List Char) :=
  match captureHexToken cs with
  | some (a, ' ' :: '[' :: rest) =>
    match matchTypeToken rest with
    | some (ty, ' ' :: rest2) => some (a, ty, takeLabel rest2)
    | _ => none
  | _ => none

/-- Embeds `RESULT_RE`: `^(?:0x)?([a-zA-Z0-9]+) \[([a-z0-9=]+)\]\w*`; yields the
address and tag captures (the trailing `\w*` constrains nothing). -/
def matchResult (cs : List Char) : Option (List Char × List Char) :=
  match captureHexToken cs with
  | some (a, ' ' :: '[' :: rest) =>
    let tg := rest.takeWhile isTagCh
    if tg.isEmpty then none
    else
      match rest.dropWhile isTagCh with
      | ']' :: _ => some (a, tg)
      | _ => none
  | _ => none

/-- Embeds `WEAK_MAP_RE`: `^WeakMapEntry map=… key=… keyDelegate=… value=…` where the
first three fields accept `(?:0x)?([a-zA-Z0-9]+|\(nil\))` and the `value`
field accepts only `(?:0x)?([a-zA-Z0-9]+)`. -/
def matchWeakMap (cs : List Char) : Option (List Char × List Char × List Char × List Char) :=
  match dropLit "WeakMapEntry map=".data cs with
  | none => none
  | some r1 =>
    match captureWmToken r1 with
    | none => none
    | some (m, r2) =>
      match dropLit " key=".data r2 with
      | none => none
      | some r3 =>
        match captureWmToken r3 with
        | none => none
        | some (k, r4) =>
          match dropLit " keyDelegate=".data r4 with
          | none => none
          | some r5 =>
            match captureWmToken r5 with
            | none => none
            | some (d, r6) =>
              match dropLit " value=".data r6 with
              | none => none
              | some r7 =>
                match captureHexToken r7 with
                | none => none
                | some (v, _) => some (m, k, d, v)

/-- Embeds `COMMENT_RE`: `^#`. -/
def matchComment (cs : List Char) : Bool := startsWithChars "#".data cs

/-- Embeds `SEPARATOR_RE`: `^==========`. -/
def matchSeparator (cs : List Char) : Bool := startsWithChars "==========".data cs

/-- Embeds `KNOWN_RE`: `^known=(\d+)` applied to a `RESULT_RE` tag (whose characters
are drawn from `[a-z0-9=]`, so `\d` can only see ASCII digits); yields the
digit capture. -/
def knownCapture (tg : List Char) : Option (List Char) :=
  match dropLit "known=".data tg with
  | some rest =>
    let ds := rest.takeWhile isDigitCh
    if ds.isEmpty then none else some ds
  | none => none

/-- Embeds `CCGraph::parse_line`, with the intern table as the only threaded state
(the method's `&mut self` mutates nothing but `self.atoms`).  The regexes
are tried in source order: edge, node, result, weak map, comment, separator;
a line matching none of them is the `panic!("Unknown line")`. -/
def parse_line (t : StringIntern) (line : String) :
    Except ParseError (ParsedLine × StringIntern) :=
  match matchEdge line.data with
  | some (a, lbl) =>
    match atomize_addr (String.mk a) with
    | none => .error .InvalidAddress
    | some addr =>
      match t.add (String.mk lbl) with
      | (lab, t') => .ok (.Edge addr lab, t')
  | none =>
  match matchNode line.data with
  | some (a, ty, lbl) =>
    match atomize_addr (String.mk a) with
    | none => .error .InvalidAddress
    | some addr =>
      match NodeType.new (String.mk ty) with
      | none => .error .InvalidRefCount
      | some nt =>
        match t.add (String.mk lbl) with
        | (lab, t') => .ok (.Node addr nt lab, t')
  | none =>
  match matchResult line.data with
  | some (a, tg) =>
    match atomize_addr (String.mk a) with
    | none => .error .InvalidAddress
    | some obj =>
      if containsChars "garbage".data tg then .ok (.Garbage obj, t)
      else
        match knownCapture tg with
        | some ds =>
          if decVal ds < 2 ^ 64 then .ok (.KnownEdge obj (decVal ds), t)
          else .error .InvalidKnownCount
        | none => .error .UnknownResultTag
  | none =>
  match matchWeakMap line.data with
  | some (m, k, d, v) =>
    match atomize_weakmap_addr (String.mk m) with
    | none => .error .InvalidAddress
    | some ma =>
      match atomize_weakmap_addr (String.mk k) with
      | none => .error .InvalidAddress
      | some ka =>
        match atomize_weakmap_addr (String.mk d) with
        | none => .error .InvalidAddress
        | some da =>
          match atomize_weakmap_addr (String.mk v) with
          | none => .error .InvalidAddress
          | some va => .ok (.WeakMap ma ka da va, t)
  | none =>
  if matchComment line.data then .ok (.Comment, t)
  else if matchSeparator line.data then .ok (.Separator, t)
  else .error .UnrecognizedLine

/-- Embeds `struct WeakMapEntry` of `cc_log.rs`. -/
structure WeakMapEntry where
  weak_map : Addr
  key : Addr
  key_delegate : Addr
  value : Addr
deriving DecidableEq

/-- Embeds `struct EdgeInfo` of `cc_log.rs`. -/
structure EdgeInfo where
  addr : Addr
  label : Atom
deriving DecidableEq

/-- Embeds `struct GraphNode` of `cc_log.rs`. -/
structure GraphNode where
  node_type : NodeType
  label : Atom
  edges : List EdgeInfo
deriving DecidableEq

/-- Embeds `struct CCGraph` of `cc_log.rs`; the `HashMap` of nodes is modelled as an
association list with unique keys (insertion order; the claims do not depend
on the hash iteration order) and the `HashSet` of incremental roots as a
list. -/
structure CCGraph where
  nodes : List (Addr × GraphNode)
  weak_map_entries : List WeakMapEntry
  incr_roots : List Addr
  atoms : StringIntern
deriving DecidableEq

/-- Embeds `HashMap::get` on the association list of nodes. -/
def lookupNode (nodes : List (Addr × GraphNode)) (a : Addr) : Option GraphNode :=
  match nodes with
  | [] => none
  | (b, n) :: rest => if b = a then some n else lookupNode rest a

def CCGraph.new : CCGraph := ⟨[], [], [], StringIntern.new⟩

/-- Embeds `CCGraph::atomize_label`. -/
def CCGraph.atomize_label (g : CCGraph) (label : String) : Atom × CCGraph :=
  match g.atoms.add label with
  | (a, t') => (a, { g with atoms := t' })

/-- Embeds `CCGraph::atom_string`. -/
def CCGraph.atom_string (g : CCGraph) (a : Atom) : String := g.atoms.get a

/-- Embeds `CCGraph::node_label`. -/
def CCGraph.node_label (g : CCGraph) (node : Addr) : Option String :=
  match lookupNode g.nodes node with
  | some n => some (g.atom_string n.label)
  | none => none

/-- Embeds `CCGraph::add_node`: `insert` the finalized open node, the `assert!` that
the address was absent modelled as a `DuplicateNode` error
(`shrink_to_fit` has no observable effect). -/
def CCGraph.add_node (g : CCGraph) (curr_node : Option (Addr × GraphNode)) :
    Except ParseError CCGraph :=
  match curr_node with
  | some (addr, node) =>
    if (lookupNode g.nodes addr).isSome then .error .DuplicateNode
    else .ok { g with nodes := g.nodes ++ [(addr, node)] }
  | none => .ok g

/-- The `for l in reader.lines()` loop of `CCGraph::parse`: every line is
classified by `self.parse_line` (which touches nothing but `self.atoms`; a
panic aborts); the classified value is pushed onto the local `results`
vector, which the function drops, so nothing else happens to the graph. -/
def CCGraph.parseLoop (g : CCGraph) : List String → Except ParseError CCGraph
  | [] => .ok g
  | l :: ls =>
    match parse_line g.atoms l with
    | .error e => .error e
    | .ok (_, t') => CCGraph.parseLoop { g with atoms := t' } ls

/-- Embeds `CCGraph::parse`.  The `BufReader` is modelled as the list of remaining
lines; the loop runs the reader to exhaustion (it never breaks on a
separator), so the remaining-lines component of the result is always `[]`. -/
def CCGraph.parse (lines : List String) : Except ParseError (CCGraph × List String) :=
  match CCGraph.parseLoop CCGraph.new lines with
  | .error e => .error e
  | .ok g => .ok (g, [])

/-- Embeds `struct CCResults` of `cc_log.rs`; the garbage `HashSet` and known-edges
`HashMap` are modelled as lists with unique elements/keys. -/
structure CCResults where
  garbage : List Addr
  known_edges : List (Addr × Nat)
deriving DecidableEq

def CCResults.new : CCResults := ⟨[], []⟩

/-- Embeds `HashSet::insert` on the garbage set (idempotent). -/
def insertGarbage (g : List Addr) (a : Addr) : List Addr :=
  if a ∈ g then g else g ++ [a]

/-- Embeds `HashMap::insert` on known edges: last write wins. -/
def insertKnown (m : List (Addr × Nat)) (a : Addr) (n : Nat) : List (Addr × Nat) :=
  match m with
  | [] => [(a, n)]
  | (b, k) :: rest => if b = a then (a, n) :: rest else (b, k) :: insertKnown rest a n

/-- Modelled from the spec: `CCResults::parse` is called by `CCLog::parse` but
is not defined anywhere in the provided sources.  Per §4.3 of the spec it
classifies each remaining line with the shared interner and folds it into the
results: `Garbage` inserts into the garbage set, `KnownEdge` inserts with
last-write-wins, `Comment` and `Separator` are no-ops, and any `Node`, `Edge`
or `WeakMap` line is a fatal `UnexpectedLine`. -/
def CCResults.parseLoop (r : CCResults) (g : CCGraph) :
    List String → Except ParseError (CCResults × CCGraph)
  | [] => .ok (r, g)
  | l :: ls =>
    match parse_line g.atoms l with
    | .error e => .error e
    | .ok (p, t') =>
      match p with
      | .Garbage a =>
        CCResults.parseLoop { r with garbage := insertGarbage r.garbage a } { g with atoms := t' } ls
      | .KnownEdge a n =>
        CCResults.parseLoop { r with known_edges := insertKnown r.known_edges a n } { g with atoms := t' } ls
      | .Comment => CCResults.parseLoop r { g with atoms := t' } ls
      | .Separator => CCResults.parseLoop r { g with atoms := t' } ls
      | _ => .error .UnexpectedLine

/-- Modelled from the spec: entry point of the missing `CCResults::parse`
(see `CCResults.parseLoop`). -/
def CCResults.parse (lines : List String) (g : CCGraph) :
    Except ParseError (CCResults × CCGraph) :=
  CCResults.parseLoop CCResults.new g lines

/-- Embeds `struct CCLog` of `cc_log.rs`. -/
structure CCLog where
  graph : CCGraph
  results : CCResults
deriving DecidableEq

/-- Embeds `CCLog::parse`: run `CCGraph::parse` on the reader, then `CCResults::parse`
on whatever the reader still holds (which, because `CCGraph::parse` exhausts
it, is nothing). -/
def CCLog.parse (lines : List String) : Except ParseError CCLog :=
  match CCGraph.parse lines with
  | .error e => .error e
  | .ok (g, remaining) =>
    match CCResults.parse remaining g with
    | .error e => .error e
    | .ok (res, g') => .ok ⟨g', res⟩

/-- A hex digit is in the regex class `[a-zA-Z0-9]`. -/
theorem isHexCh_isAlnumCh {c : Char} (h : isHexCh c = true) : isAlnumCh c = true := by
  simp [isHexCh, isDigitCh] at h
  simp [isAlnumCh, isDigitCh, isLowerCh, isUpperCh]
  omega

/-- A digit character is not the letter `r` (first character of `rc=`). -/
theorem digit_ne_r {c : Char} (h : isDigitCh c = true) : ('r' == c) = false := by
  refine beq_eq_false_iff_ne.mpr ?_
  intro he
  rw [← he] at h
  exact absurd h (by decide)

/-- A string of digit characters contains no occurrence of `rc=`. -/
theorem upToRcEq_digits {ds : List Char} (h : ds.all isDigitCh = true) :
    afterRcEq.upToRcEq ds = ds := by
  induction ds with
  | nil => rfl
  | cons d ds ih =>
    simp only [List.all_cons, Bool.and_eq_true] at h
    simp [afterRcEq.upToRcEq, startsWithChars, digit_ne_r h.1, ih h.2]

/-- Behaviour of `NodeType::new` on a grammar-shaped refcount token: the digits parse as an
`i32` exactly when the value fits. -/
theorem NodeType_new_rc {ds : List Char} (hne : ds ≠ []) (h : ds.all isDigitCh = true) :
    NodeType.new (String.mk ('r' :: 'c' :: '=' :: ds)) =
      if decVal ds ≤ 2147483647 then some (NodeType.RefCounted (decVal ds)) else none := by
  have h1 : afterRcEq ('r' :: 'c' :: '=' :: ds) = some (afterRcEq.upToRcEq ds) := rfl
  simp only [NodeType.new, h1, upToRcEq_digits h, parseI32,
    List.isEmpty_eq_true, hne, if_false, h, if_true]
  by_cases hle : decVal ds ≤ 2147483647 <;> simp [hle]

/-- Behaviour of `NodeType::new` on a grammar-shaped `gc` token with an arbitrary filler
character (the regex any-character): the token contains no `rc=`, and
`starts_with("gc.")` is decided by the filler character. -/
theorem NodeType_new_gc_marked (c : Char) :
    NodeType.new (String.mk ('g' :: 'c' :: c :: 'm' :: 'a' :: 'r' :: 'k' :: 'e' :: 'd' :: [])) =
      some (NodeType.GC ('.' == c)) := by
  have e1 : (('r' : Char) == 'g') = false := by decide
  have e2 : (('r' : Char) == 'c') = false := by decide
  have e3 : (('c' : Char) == 'm') = false := by decide
  have e4 : (('r' : Char) == 'm') = false := by decide
  have e5 : (('r' : Char) == 'a') = false := by decide
  have e6 : (('c' : Char) == 'k') = false := by decide
  have e7 : (('r' : Char) == 'k') = false := by decide
  have e8 : (('r' : Char) == 'e') = false := by decide
  have e9 : (('r' : Char) == 'd') = false := by decide
  have hrc : "rc=".data = ['r', 'c', '='] := rfl
  have hgc : "gc.".data = ['g', 'c', '.'] := rfl
  simp [NodeType.new, afterRcEq, startsWithChars, hrc, hgc,
    e1, e2, e3, e4, e5, e6, e7, e8, e9]

/-- C6 (counterexample): the node-line grammar accepts the type token
`rc=2147483648`, but its count does not fit in an `i32`, so `NodeType::new`
panics on the `unwrap` instead of yielding `RefCounted(2147483648)`; a whole
node line carrying this token makes the classification fail. -/
theorem c6_type_token_counterexample :
    matchTypeToken "rc=2147483648]".data = some ("rc=2147483648".data, []) ∧
    NodeType.new "rc=2147483648" = none ∧
    parse_line StringIntern.new "5 [rc=2147483648] Foo" = .error ParseError.InvalidRefCount :=
  ⟨rfl, rfl, rfl⟩

/-- Shape of a successful `rc=[0-9]+` type-token match: the token is `rc=`
followed by the nonempty digit run. -/
theorem matchRcDigits_spec {rest tok r2 : List Char}
    (h : matchRcDigits rest = some (tok, r2)) :
    tok = "rc=".data ++ rest.takeWhile isDigitCh ∧ rest.takeWhile isDigitCh ≠ [] := by
  unfold matchRcDigits at h
  split at h
  · simp at h
  · rename_i hemp
    split at h
    · simp only [Option.some.injEq, Prod.mk.injEq] at h
      exact ⟨h.1.symm, by simpa [List.isEmpty_eq_false] using hemp⟩
    · simp at h

/-- Shape of a successful `gc(?:.marked)?` type-token match: the token is
either `gc` plus an arbitrary filler character plus `marked`, or bare `gc`. -/
theorem matchGcAfter_spec {cs tok rest : List Char}
    (h : matchGcAfter cs = some (tok, rest)) :
    (∃ c : Char, tok = 'g' :: 'c' :: c :: "marked".data) ∨ tok = ['g', 'c'] := by
  rcases cs with _ | ⟨c, r⟩
  · simp [matchGcAfter] at h
  · simp only [matchGcAfter] at h
    split at h
    · simp only [Option.some.injEq, Prod.mk.injEq] at h
      exact Or.inl ⟨c, h.1.symm⟩
    · split at h
      · simp only [Option.some.injEq, Prod.mk.injEq] at h
        exact Or.inr h.1.symm
      · simp at h

/-- C6 (amended): for every type token accepted by the node-line grammar,
either the token is `rc=<digits>` and `NodeType::new` yields
`RefCounted(N)` exactly when `N` fits in an `i32` (otherwise the refcount
parse panics), or `NodeType::new` yields `GC(marked)` with `marked` true iff
the token is exactly `gc.marked`. -/
theorem c6_type_token_amended (cs tok rest : List Char)
    (h : matchTypeToken cs = some (tok, rest)) :
    (∃ ds : List Char, tok = "rc=".data ++ ds ∧ ds ≠ [] ∧ ds.all isDigitCh = true ∧
        NodeType.new (String.mk tok) =
          (if decVal ds ≤ 2147483647 then some (NodeType.RefCounted (decVal ds)) else none)) ∨
    (∃ b : Bool, NodeType.new (String.mk tok) = some (NodeType.GC b) ∧
        (b = true ↔ tok = "gc.marked".data)) := by
  unfold matchTypeToken at h
  split at h
  · obtain ⟨h1, hne⟩ := matchRcDigits_spec h
    left
    refine ⟨(cs.drop 3).takeWhile isDigitCh, h1, hne, List.all_takeWhile, ?_⟩
    rw [h1]
    exact NodeType_new_rc hne List.all_takeWhile
  · split at h
    · rcases matchGcAfter_spec h with ⟨c, h1⟩ | h1
      · right
        refine ⟨('.' == c), ?_, ?_, ?_⟩
        · rw [h1]
          exact NodeType_new_gc_marked c
        · intro hb
          have hc : c = '.' := (eq_of_beq hb).symm
          rw [h1, hc]
        · intro hl
          rw [h1] at hl
          have hm : "marked".data = ['m', 'a', 'r', 'k', 'e', 'd'] := rfl
          have hg : "gc.marked".data =
              'g' :: 'c' :: '.' :: 'm' :: 'a' :: 'r' :: 'k' :: 'e' :: 'd' :: [] := rfl
          rw [hm, hg] at hl
          simp only [List.cons.injEq] at hl
          rw [hl.2.2.1]
          rfl
      · right
        refine ⟨false, ?_, ?_⟩
        · subst h1
          rfl
        · rw [h1]
          constructor
          · intro hb
            exact absurd hb (by decide)
          · intro hl
            exact absurd hl (by decide)
    · simp at h

/-- C6 (witness for the amended theorem at the concrete token `rc=3`). -/
theorem c6_type_token_amended_witness :
    (∃ ds : List Char, "rc=3".data = "rc=".data ++ ds ∧ ds ≠ [] ∧ ds.all isDigitCh = true ∧
        NodeType.new (String.mk "rc=3".data) =
          (if decVal ds ≤ 2147483647 then some (NodeType.RefCounted (decVal ds)) else none)) ∨
    (∃ b : Bool, NodeType.new (String.mk "rc=3".data) = some (NodeType.GC b) ∧
        (b = true ↔ "rc=3".data = "gc.marked".data)) :=
  c6_type_token_amended "rc=3]".data "rc=3".data [] (by decide)

/-- C1: evaluating `CCLog::parse` on the spec's six-line example.  The parse
succeeds, but the resulting graph has no nodes at all (in particular none at
address 5, and no edges) and the results are empty: `CCGraph::parse` pushes
every classified line onto a local vector that it drops, never calling
`add_node`, and it exhausts the reader, so `CCResults::parse` receives no
lines.  Only the two labels reached the interner (deduplicated). -/
theorem c1_parse_yields_empty_log :
    CCLog.parse ["5 [rc=3] Foo", "> 6 edge1", "> 6 edge1", "==========",
        "5 [garbage]", "6 [known=2]"] =
      .ok ⟨⟨[], [], [], ⟨["Foo", "edge1"]⟩⟩, ⟨[], []⟩⟩ := rfl

/-- C2: `CCGraph::parse` does not stop at the separator: on an input whose
first line is the separator, the following result line is still consumed by
the graph phase (the remaining-lines component is empty), so the modelled
`CCResults::parse` receives nothing and the final results are empty. -/
theorem c2_graph_parse_consumes_past_separator :
    CCGraph.parse ["==========", "5 [garbage]"] = .ok (⟨[], [], [], ⟨[]⟩⟩, []) ∧
    CCLog.parse ["==========", "5 [garbage]"] = .ok ⟨⟨[], [], [], ⟨[]⟩⟩, ⟨[], []⟩⟩ :=
  ⟨rfl, rfl⟩

/-- C3: section order is not enforced.  A `Garbage` result line before any
separator parses successfully (no `UnexpectedLine`), and a node line after
the separator also parses successfully (it is classified and discarded by
the graph phase, which runs over the whole file). -/
theorem c3_sections_not_enforced :
    CCLog.parse ["5 [garbage]"] = .ok ⟨⟨[], [], [], ⟨[]⟩⟩, ⟨[], []⟩⟩ ∧
    CCLog.parse ["==========", "5 [rc=3] Foo"] = .ok ⟨⟨[], [], [], ⟨["Foo"]⟩⟩, ⟨[], []⟩⟩ :=
  ⟨rfl, rfl⟩

/-- C4: an edge line with no preceding node line does not fail: the parse
succeeds (no `EdgeWithoutNode`), the edge's label is interned, and the edge
is attached to nothing because the graph phase discards every classified
line. -/
theorem c4_orphan_edge_accepted :
    CCLog.parse ["> 6 edge1"] = .ok ⟨⟨[], [], [], ⟨["edge1"]⟩⟩, ⟨[], []⟩⟩ := rfl

/-- C5: two node lines with the same address do not fail: the parse succeeds
with an empty node map, because `CCGraph::parse` never calls `add_node`
(whose `assert!` is what would implement the `DuplicateNode` failure). -/
theorem c5_duplicate_nodes_accepted :
    CCLog.parse ["5 [rc=1] a", "5 [rc=2] b"] = .ok ⟨⟨[], [], [], ⟨["a", "b"]⟩⟩, ⟨[], []⟩⟩ := rfl

/-- The `assert!` in `add_node` does implement the duplicate-address failure:
finalizing a node at an address already present in the map is an error.
(This supports reading C5's failure behaviour as the code's intent even
though `CCGraph::parse` never invokes `add_node`.) -/
theorem add_node_duplicate (g : CCGraph) (a : Addr) (nd : GraphNode)
    (h : (lookupNode g.nodes a).isSome = true) :
    g.add_node (some (a, nd)) = .error ParseError.DuplicateNode := by
  simp [CCGraph.add_node, h]

/-- Closed instance of `add_node_duplicate`. -/
theorem add_node_duplicate_example :
    CCGraph.add_node ⟨[(5, ⟨NodeType.GC false, 0, []⟩)], [], [], ⟨["x"]⟩⟩
      (some (5, ⟨NodeType.GC false, 0, []⟩)) = .error ParseError.DuplicateNode :=
  add_node_duplicate ⟨[(5, ⟨NodeType.GC false, 0, []⟩)], [], [], ⟨["x"]⟩⟩ 5
    ⟨NodeType.GC false, 0, []⟩ rfl

/-- C7 (counterexample): a weak-map line whose `value` field is `(nil)` is not
accepted — `WEAK_MAP_RE` allows the nil sentinel only in the first three
fields, so the line matches nothing and classification fails with
`UnrecognizedLine` instead of yielding a `WeakMap` entry. -/
theorem c7_weakmap_value_nil_counterexample :
    parse_line StringIntern.new
        "WeakMapEntry map=(nil) key=0x5 keyDelegate=(nil) value=(nil)" =
      .error ParseError.UnrecognizedLine := rfl

/-- C7 (amended): the spec's weak-map example classifies to
`WeakMap {0, 5, 0, 9}`; the map, key and keyDelegate fields accept `(nil)`
(decoded to address 0 by the weak-map helper) while plain address decoding
rejects it, and the helper decodes any in-range hex string to its value. -/
theorem c7_weakmap_amended :
    parse_line StringIntern.new
        "WeakMapEntry map=(nil) key=0x5 keyDelegate=(nil) value=0x9" =
      .ok (ParsedLine.WeakMap 0 5 0 9, StringIntern.new) ∧
    atomize_weakmap_addr "(nil)" = some 0 ∧
    atomize_addr "(nil)" = none ∧
    (∀ s : String, s.data ≠ [] → s.data.all isHexCh = true → hexVal s.data < 2 ^ 64 →
      atomize_weakmap_addr s = some (hexVal s.data)) := by
  refine ⟨rfl, rfl, rfl, ?_⟩
  intro s hne hall hlt
  have hs : ¬ (s = "(nil)") := by
    intro he
    rw [he] at hall
    exact absurd hall (by decide)
  simp only [atomize_weakmap_addr, if_neg hs]
  simp [atomize_addr, u64FromStrRadix16, List.isEmpty_eq_true, hne, hall]
  simpa using hlt

/-- C7 (witness for the amended theorem at the concrete field `9`). -/
theorem c7_weakmap_amended_witness : atomize_weakmap_addr "9" = some 9 :=
  c7_weakmap_amended.2.2.2 "9" (by decide) (by decide) (by decide)

/-- C8: address decoding accepts a hex string, the regex capture strips an
optional `0x` prefix in front of it, any string with a non-hex character is
rejected (`InvalidAddress` panic, modelled as `none`), and such a failure
aborts the whole parse: a log whose first line carries the non-hex address
`5g` fails outright. -/
theorem c8_hex_decode (s : String) :
    (s.data ≠ [] → s.data.all isHexCh = true → hexVal s.data < 2 ^ 64 →
      atomize_addr s = some (hexVal s.data) ∧ strip0x ('0' :: 'x' :: s.data) = s.data) ∧
    (s.data.all isHexCh = false → atomize_addr s = none) ∧
    CCLog.parse ["> 5g x", "5 [rc=1] a"] = .error ParseError.InvalidAddress := by
  refine ⟨?_, ?_, rfl⟩
  · intro hne hall hlt
    constructor
    · simp [atomize_addr, u64FromStrRadix16, List.isEmpty_eq_true, hne, hall]
      simpa using hlt
    · rcases hd : s.data with _ | ⟨c, cs⟩
      · exact absurd hd hne
      · have hx : isAlnumCh c = true := by
          rw [hd] at hall
          simp only [List.all_cons, Bool.and_eq_true] at hall
          exact isHexCh_isAlnumCh hall.1
        simp [strip0x, headIsAlnum, hx]
  · intro hall
    simp [atomize_addr, u64FromStrRadix16, hall]

/-- C8 (witness at the concrete hex string `a0`). -/
theorem c8_hex_decode_witness :
    atomize_addr "a0" = some (hexVal "a0".data) ∧
    strip0x ('0' :: 'x' :: "a0".data) = "a0".data :=
  (c8_hex_decode "a0").1 (by decide) (by decide) (by decide)

/-- C9: a line on which all six grammar matchers fail is classified as the
fatal `UnrecognizedLine` (classification is never partial: only these
patterns exist), and a log containing the ungrammatical line
`garbage truck` fails to parse, so no node from any later line can appear
in any result. -/
theorem c9_unrecognized_line :
    (∀ (t : StringIntern) (line : String),
        matchEdge line.data = none → matchNode line.data = none →
        matchResult line.data = none → matchWeakMap line.data = none →
        matchComment line.data = false → matchSeparator line.data = false →
        parse_line t line = .error ParseError.UnrecognizedLine) ∧
    CCLog.parse ["garbage truck", "5 [rc=3] Foo"] = .error ParseError.UnrecognizedLine := by
  constructor
  · intro t line h1 h2 h3 h4 h5 h6
    simp [parse_line, h1, h2, h3, h4, h5, h6]
  · rfl

/-- C9 (witness at the concrete line `garbage truck`). -/
theorem c9_unrecognized_line_witness :
    parse_line StringIntern.new "garbage truck" = .error ParseError.UnrecognizedLine :=
  c9_unrecognized_line.1 StringIntern.new "garbage truck" rfl rfl rfl rfl rfl rfl

/-- C10: `node_label` returns the interned label string of the node stored at
an address present in the node map, and `none` for any absent address; the
lookup is total. -/
theorem c10_node_label (g : CCGraph) (a : Addr) :
    (∀ n : GraphNode, lookupNode g.nodes a = some n →
        g.node_label a = some (g.atom_string n.label)) ∧
    (lookupNode g.nodes a = none → g.node_label a = none) := by
  constructor
  · intro n h
    simp [CCGraph.node_label, h]
  · intro h
    simp [CCGraph.node_label, h]

/-- C10 (witness on a one-node graph). -/
theorem c10_node_label_witness :
    CCGraph.node_label ⟨[(5, ⟨NodeType.RefCounted 3, 0, []⟩)], [], [], ⟨["Foo"]⟩⟩ 5 =
      some (CCGraph.atom_string ⟨[(5, ⟨NodeType.RefCounted 3, 0, []⟩)], [], [], ⟨["Foo"]⟩⟩ 0) :=
  (c10_node_label ⟨[(5, ⟨NodeType.RefCounted 3, 0, []⟩)], [], [], ⟨["Foo"]⟩⟩ 5).1
    ⟨NodeType.RefCounted 3, 0, []⟩ rfl
